import Mathlib

/-!
Verification development for the TruthTeller-AI question-sourcing pipeline
(`src/services/aiQuestionService.js` and `src/services/huggingFaceRepoService.js`).

The JavaScript code is shallowly embedded: JSON values become an inductive
`Json` type, JS strings are handled as `List Char`, exceptions become
`Except String`, and the external world (fetch outcomes, the inference
endpoint, `Math.random` shuffling, `Date.now()`) is an explicit `Env`
record.  `JSON.parse` is modeled by an executable recursive-descent parser
over `Json` (numbers restricted to optionally signed integers, string
escapes restricted to the simple forms; this covers every value the
question schema uses).  JS number semantics that matter here are integral,
so `Int` is used.
-/

namespace TTeller

/-- JSON values (the result of `JSON.parse` and the shape of the question
objects the services pass around). -/
inductive Json where
  | null : Json
  | bool (b : Bool) : Json
  | num (n : Int) : Json
  | str (s : String) : Json
  | arr (elems : List Json) : Json
  | obj (fields : List (String × Json)) : Json

/-- JS truthiness of a JSON value (`null`, `false`, `0`, `""` are falsy;
arrays and objects are always truthy). -/
def truthy : Json → Bool
  | .null => false
  | .bool b => b
  | .num n => n != 0
  | .str s => s != ""
  | .arr _ => true
  | .obj _ => true

/-- JS truthiness of a possibly-`undefined` value (`none` = `undefined`). -/
def truthyO : Option Json → Bool
  | none => false
  | some j => truthy j

/-- First field with the given key of a JSON object field list. -/
def lookupField (key : String) : List (String × Json) → Option Json
  | [] => none
  | (k, v) :: rest => if k = key then some v else lookupField key rest

/-- JS property access `v[key]`: throws `TypeError` on `null`, looks the key
up on objects, and yields `undefined` on primitives and arrays (none of the
keys accessed by this code base are special array/string properties). -/
def getProp (v : Json) (key : String) : Except String (Option Json) :=
  match v with
  | .null => .error "TypeError: cannot read properties of null"
  | .obj fs => .ok (lookupField key fs)
  | _ => .ok none

/-- JS optional-chained property access `v?.[key]` where `v` itself may be
`undefined` or `null` (then the chain short-circuits to `undefined`). -/
def getPropChain (v : Option Json) (key : String) : Except String (Option Json) :=
  match v with
  | none => .ok none
  | some .null => .ok none
  | some j => getProp j key

/-- The backtick character (code 96), written via its code point. -/
def btChar : Char := Char.ofNat 96

/-- JS `\s` whitespace test, restricted to the whitespace characters that
can occur in this pipeline's strings. -/
def isWsChar (c : Char) : Bool :=
  c = ' ' || c = '\t' || c = '\n' || c = '\r'

/-- Left trim on character lists. -/
def trimLeftL (l : List Char) : List Char := l.dropWhile isWsChar

/-- JS `String.prototype.trim` on character lists. -/
def jsTrimL (l : List Char) : List Char :=
  ((trimLeftL l).reverse.dropWhile isWsChar).reverse

/-- JS `String.prototype.trim`. -/
def jsTrim (s : String) : String := String.mk (jsTrimL s.toList)

/-- JS `String.prototype.toLowerCase` (character-wise lowering). -/
def jsToLower (s : String) : String := String.mk (s.toList.map Char.toLower)

/-- Does the list start with three backticks? -/
def fenceHead : List Char → Bool
  | a :: b :: c :: _ => a = btChar && b = btChar && c = btChar
  | _ => false

/-- Does the list start with three backticks followed by `json`? -/
def fenceJsonHead : List Char → Bool
  | a :: b :: c :: d :: e :: f :: g :: _ =>
    a = btChar && b = btChar && c = btChar && d = 'j' && e = 's' && f = 'o' && g = 'n'
  | _ => false

/-- Split at the first occurrence of a triple-backtick fence: returns the
text before the fence and the text after it, or `none` when no fence
occurs.  This models both the `includes` test for a fence and the position
the regexes `/.../` find. -/
def splitFence : List Char → Option (List Char × List Char)
  | [] => none
  | c :: rest =>
    if fenceHead (c :: rest) then some ([], rest.drop 2)
    else (splitFence rest).map (fun p => (c :: p.1, p.2))

/-- Split at the first occurrence of a backtick-backtick-backtick-`json`
opening tag, returning text before and after the 7-character tag. -/
def splitFenceJson : List Char → Option (List Char × List Char)
  | [] => none
  | c :: rest =>
    if fenceJsonHead (c :: rest) then some ([], rest.drop 6)
    else (splitFenceJson rest).map (fun p => (c :: p.1, p.2))

/-- Drop one optional leading newline (the `\n?` of the replacement
regexes). -/
def dropOneNl : List Char → List Char
  | [] => []
  | c :: rest => if c = '\n' then rest else c :: rest

/-- Fueled worker for `content.replace(/<fence>json\n?/g, '')`. -/
def stripFenceJsonAllGo : Nat → List Char → List Char
  | 0, _ => []
  | _ + 1, [] => []
  | fuel + 1, c :: rest =>
    if fenceJsonHead (c :: rest) then stripFenceJsonAllGo fuel (dropOneNl (rest.drop 6))
    else c :: stripFenceJsonAllGo fuel rest

/-- Model of `content.replace(/<fence>json\n?/g, '')` — delete every occurrence of the
fenced-json opening tag and an optional following newline. -/
def stripFenceJsonAll (l : List Char) : List Char := stripFenceJsonAllGo (l.length + 1) l

/-- Fueled worker for `content.replace(/<fence>\n?/g, '')`. -/
def stripFenceAllGo : Nat → List Char → List Char
  | 0, _ => []
  | _ + 1, [] => []
  | fuel + 1, c :: rest =>
    if fenceHead (c :: rest) then stripFenceAllGo fuel (dropOneNl (rest.drop 2))
    else c :: stripFenceAllGo fuel rest

/-- Model of `content.replace(/<fence>\n?/g, '')` — delete every triple-backtick and an
optional following newline. -/
def stripFenceAll (l : List Char) : List Char := stripFenceAllGo (l.length + 1) l

/-- Split at the first occurrence of a single character. -/
def splitAtChar (ch : Char) : List Char → Option (List Char × List Char)
  | [] => none
  | c :: rest =>
    if c = ch then some ([], rest)
    else (splitAtChar ch rest).map (fun p => (c :: p.1, p.2))

/-- The greedy regex `/\[[\s\S]*\]/`: the slice from the first `[` to the
last `]` (requiring the `]` to come after the `[`); `none` when it does not
match. -/
def findArraySlice (l : List Char) : Option (List Char) :=
  match splitAtChar '[' l with
  | none => none
  | some (_, afterL) =>
    match splitAtChar ']' afterL.reverse with
    | none => none
    | some (_, beforeRrev) => some ('[' :: beforeRrev.reverse ++ [']'])

/-- Substring test on character lists (`String.prototype.includes`). -/
def containsSubL (pat : List Char) : List Char → Bool
  | [] => pat.isEmpty
  | c :: rest => pat.isPrefixOf (c :: rest) || containsSubL pat rest

/-- Model of `String.prototype.includes`. -/
def containsSub (s pat : String) : Bool := containsSubL pat.toList s.toList

/-- The markdown-stripping and array-locating step of the response parser
(`aiQuestionService.js` lines 399-425): remove a fenced code block
(preferring the regex-captured group between the first opening tag and the
next closing fence, falling back to global deletion of the fence markers),
then, when the remainder does not start with `[`, take the first-to-last
bracket slice. -/
def extractJsonContentL (content : List Char) : List Char :=
  let jsonContent :=
    if (splitFenceJson content).isSome then
      match splitFenceJson content with
      | some (_, afterTag) =>
        match splitFence afterTag with
        | some (mid, _) => jsTrimL mid
        | none => stripFenceAll (stripFenceJsonAll content)
      | none => content
    else if (splitFence content).isSome then
      match splitFence content with
      | some (_, afterTag) =>
        match splitFence afterTag with
        | some (mid, _) => jsTrimL mid
        | none => stripFenceAll content
      | none => content
    else content
  if (jsTrimL jsonContent).head? = some '[' then jsonContent
  else
    match findArraySlice jsonContent with
    | some slice => slice
    | none => jsonContent

/-- Opening brace character (code 123). -/
def lbraceChar : Char := Char.ofNat 123

/-- Closing brace character (code 125). -/
def rbraceChar : Char := Char.ofNat 125

/-- Skip JSON whitespace. -/
def skipWsL (l : List Char) : List Char := l.dropWhile isWsChar

/-- Decode one string-literal escape character. -/
def escChar (e : Char) : Option Char :=
  if e = '"' then some '"'
  else if e = '\\' then some '\\'
  else if e = '/' then some '/'
  else if e = 'n' then some '\n'
  else if e = 't' then some '\t'
  else if e = 'r' then some '\r'
  else if e = 'b' then some (Char.ofNat 8)
  else if e = 'f' then some (Char.ofNat 12)
  else none

/-- Parse the body of a JSON string literal (after the opening quote),
returning the decoded text and the remainder after the closing quote.
Unicode escapes are not supported (no input in this development uses
them). -/
def parseStrBody : List Char → Option (List Char × List Char)
  | [] => none
  | c :: rest =>
    if c = '"' then some ([], rest)
    else if c = '\\' then
      match rest with
      | [] => none
      | e :: rest2 =>
        match escChar e with
        | none => none
        | some ch => (parseStrBody rest2).map (fun p => (ch :: p.1, p.2))
    else (parseStrBody rest).map (fun p => (c :: p.1, p.2))

/-- Accumulate decimal digits. -/
def digitsGo (acc : Nat) : List Char → (Nat × List Char)
  | [] => (acc, [])
  | c :: rest =>
    if c.isDigit then digitsGo (acc * 10 + (c.toNat - 48)) rest
    else (acc, c :: rest)

/-- Parse a JSON number restricted to optionally signed integers (a
following `.`/`e`/`E` makes the parse fail rather than mis-read; no value
in this code base is fractional). -/
def parseIntLit (l : List Char) : Option (Int × List Char) :=
  let (neg, l') : Bool × List Char :=
    match l with
    | c :: rest => if c = '-' then (true, rest) else (false, l)
    | [] => (false, l)
  match l' with
  | c :: _ =>
    if c.isDigit then
      let (n, rest) := digitsGo 0 l'
      match rest with
      | d :: _ => if d = '.' || d = 'e' || d = 'E' then none
                  else some (if neg then -(n : Int) else (n : Int), rest)
      | [] => some (if neg then -(n : Int) else (n : Int), rest)
    else none
  | [] => none

mutual

/-- Fueled recursive-descent model of `JSON.parse` (value position; leading
whitespace already skipped). -/
def parseVal : Nat → List Char → Option (Json × List Char)
  | 0, _ => none
  | _ + 1, [] => none
  | fuel + 1, c :: rest =>
    if c = 'n' then
      match rest with
      | 'u' :: 'l' :: 'l' :: r => some (.null, r)
      | _ => none
    else if c = 't' then
      match rest with
      | 'r' :: 'u' :: 'e' :: r => some (.bool true, r)
      | _ => none
    else if c = 'f' then
      match rest with
      | 'a' :: 'l' :: 's' :: 'e' :: r => some (.bool false, r)
      | _ => none
    else if c = '"' then
      (parseStrBody rest).map (fun p => (.str (String.mk p.1), p.2))
    else if c = '[' then
      let r := skipWsL rest
      match r with
      | d :: r2 =>
        if d = ']' then some (.arr [], r2)
        else (parseElems fuel r).map (fun p => (.arr p.1, p.2))
      | [] => none
    else if c = lbraceChar then
      let r := skipWsL rest
      match r with
      | d :: r2 =>
        if d = rbraceChar then some (.obj [], r2)
        else (parseFields fuel r).map (fun p => (.obj p.1, p.2))
      | [] => none
    else
      (parseIntLit (c :: rest)).map (fun p => (.num p.1, p.2))

/-- Parse one or more array elements (at a non-`]` position). -/
def parseElems : Nat → List Char → Option (List Json × List Char)
  | 0, _ => none
  | fuel + 1, l =>
    match parseVal fuel l with
    | none => none
    | some (j, rest) =>
      match skipWsL rest with
      | c :: r2 =>
        if c = ',' then
          match parseElems fuel (skipWsL r2) with
          | some (js, r3) => some (j :: js, r3)
          | none => none
        else if c = ']' then some ([j], r2)
        else none
      | [] => none

/-- Parse one or more object fields (at a non-closing-brace position). -/
def parseFields : Nat → List Char → Option (List (String × Json) × List Char)
  | 0, _ => none
  | fuel + 1, l =>
    match l with
    | c :: rest =>
      if c = '"' then
        match parseStrBody rest with
        | none => none
        | some (key, r1) =>
          match skipWsL r1 with
          | d :: r2 =>
            if d = ':' then
              match parseVal fuel (skipWsL r2) with
              | none => none
              | some (v, r3) =>
                match skipWsL r3 with
                | e :: r4 =>
                  if e = ',' then
                    match parseFields fuel (skipWsL r4) with
                    | some (fs, r5) => some ((String.mk key, v) :: fs, r5)
                    | none => none
                  else if e = rbraceChar then some ([(String.mk key, v)], r4)
                  else none
                | [] => none
            else none
          | [] => none
      else none
    | [] => none

end

/-- Executable model of `JSON.parse`: parse a complete value, allowing
surrounding whitespace. -/
def jsonParse (s : String) : Option Json :=
  match parseVal (s.toList.length + 1) (skipWsL s.toList) with
  | some (j, rest) => if (skipWsL rest).isEmpty then some j else none
  | none => none

/-- The canonical question record built by the formatting step
(`aiQuestionService.js` lines 453-464).  Fields that JavaScript leaves
`undefined` are `none`; fields copied from the model output without
coercion keep their raw `Json` value. -/
structure Question where
  id : Int
  category : String
  difficulty : String
  type : Json
  question : Option Json
  options : Option Json
  correct : Option Json
  explanation : Json
  source : Option String
  generatedAt : Option String

/-- JS `a || b` on a possibly-`undefined` value: the value when truthy,
otherwise the default. -/
def jsOr (v : Option Json) (d : Json) : Json :=
  match v with
  | some j => if truthy j then j else d
  | none => d

/-- Format one parsed entry into a `Question`
(the body of `limitedQuestions.map` at lines 453-464): attach a fresh id
(`Date.now() + index`), the requested category (`'mixed'` when null) and
difficulty, default `type`/`options`/`explanation`, and pass
`question`/`correct` through unvalidated.  A `null` entry makes the
property accesses throw, as in JavaScript. -/
def formatOne (e : Json) (category : Option String) (difficulty : String)
    (now : Int) (ts : String) (index : Nat) : Except String Question := do
  let ty ← getProp e "type"
  let qu ← getProp e "question"
  let op ← getProp e "options"
  let co ← getProp e "correct"
  let ex ← getProp e "explanation"
  .ok { id := now + index
        category := category.getD "mixed"
        difficulty := difficulty
        type := jsOr ty (.str "multiple-choice")
        question := qu
        options := some (jsOr op (.arr []))
        correct := co
        explanation := jsOr ex (.str "No explanation provided.")
        source := some "ai-generated"
        generatedAt := some ts }

/-- Format a list of entries starting at a given index. -/
def formatList (category : Option String) (difficulty : String) (now : Int)
    (ts : String) : Nat → List Json → Except String (List Question)
  | _, [] => .ok []
  | i, e :: rest => do
    let q ← formatOne e category difficulty now ts i
    let l ← formatList category difficulty now ts (i + 1) rest
    .ok (q :: l)

/-- The validation/formatting stage of the response parser
(lines 439-464): require a JSON array, truncate to at most `count`
entries, and format each retained entry. -/
def formatQuestions (entries : List Json) (category : Option String)
    (difficulty : String) (count : Nat) (now : Int) (ts : String) :
    Except String (List Question) :=
  formatList category difficulty now ts 0 (entries.take count)

/-- The full response parser `parseQuestions` (lines 374-464 minus the
envelope handling): trim the raw text, strip markdown fencing and locate
the array slice, `JSON.parse` it (a failure or a non-array is a thrown
`Error`), and format. -/
def parseQuestionsText (raw : String) (category : Option String)
    (difficulty : String) (count : Nat) (now : Int) (ts : String) :
    Except String (List Question) :=
  let content := jsTrimL raw.toList
  let jsonContent := extractJsonContentL content
  match jsonParse (String.mk jsonContent) with
  | none => .error "Failed to parse JSON from AI response"
  | some (.arr entries) => formatQuestions entries category difficulty count now ts
  | some _ => .error "AI did not return an array of questions"

/-- Build a static multiple-choice table entry. -/
def mkMC (id : Int) (cat diff q : String) (opts : List String) (c : Int) (ex : String) : Question :=
  { id := id, category := cat, difficulty := diff, type := .str "multiple-choice"
    question := some (.str q), options := some (.arr (opts.map Json.str))
    correct := some (.num c), explanation := .str ex, source := none, generatedAt := none }

/-- Build a static true-false table entry (its object literal has no
`options` key, so the property is `undefined`). -/
def mkTF (id : Int) (cat diff q : String) (c : Bool) (ex : String) : Question :=
  { id := id, category := cat, difficulty := diff, type := .str "true-false"
    question := some (.str q), options := none
    correct := some (.bool c), explanation := .str ex, source := none, generatedAt := none }

/-- The compiled-in fallback question table
(`aiQuestionService.js` lines 528-706). -/
def fallbackQuestions : List Question :=
  [ mkMC 1 "science" "easy" "Which planet is known as the Red Planet?"
      ["Venus", "Mars", "Jupiter", "Saturn"] 1
      "Mars is called the Red Planet due to iron oxide on its surface."
  , mkTF 2 "science" "easy" "Water boils at 100 degrees Celsius at sea level."
      true "Yes, water boils at 100 degrees C (212 degrees F) at standard atmospheric pressure."
  , mkTF 3 "science" "medium" "The human body has 206 bones."
      true "Yes, the adult human body has 206 bones."
  , mkMC 4 "science" "medium" "What is the chemical symbol for gold?"
      ["Go", "Gd", "Au", "Ag"] 2
      "Au is the chemical symbol for gold (from Latin aurum)."
  , mkMC 5 "science" "hard" "What is the speed of light in a vacuum?"
      ["300,000 km/s", "150,000 km/s", "450,000 km/s", "299,792 km/s"] 3
      "The speed of light in a vacuum is exactly 299,792,458 meters per second (approximately 300,000 km/s)."
  , mkMC 6 "history" "easy" "In which year did World War II end?"
      ["1944", "1945", "1946", "1947"] 1
      "World War II ended in 1945."
  , mkTF 7 "history" "easy" "The United States declared independence in 1776."
      true "Yes, the Declaration of Independence was signed on July 4, 1776."
  , mkMC 8 "history" "medium" "Who was the first person to walk on the moon?"
      ["Buzz Aldrin", "Neil Armstrong", "Michael Collins", "John Glenn"] 1
      "Neil Armstrong was the first person to walk on the moon on July 20, 1969."
  , mkMC 9 "history" "hard" "The Renaissance period began in which country?"
      ["France", "Germany", "Italy", "Spain"] 2
      "The Renaissance began in Italy in the 14th century, particularly in Florence."
  , mkMC 10 "geography" "easy" "What is the capital of France?"
      ["London", "Berlin", "Paris", "Madrid"] 2
      "Paris is the capital of France."
  , mkTF 11 "geography" "easy" "Mount Everest is the tallest mountain in the world."
      true "Yes, Mount Everest is the highest peak above sea level at 8,848 meters (29,029 feet)."
  , mkMC 12 "geography" "medium" "Which is the largest ocean on Earth?"
      ["Atlantic", "Indian", "Arctic", "Pacific"] 3
      "The Pacific Ocean is the largest ocean, covering about one-third of the surface of Earth."
  , mkMC 13 "geography" "hard" "What is the deepest point in the ocean?"
      ["Mariana Trench", "Puerto Rico Trench", "Java Trench", "Tonga Trench"] 0
      "The Mariana Trench in the Pacific Ocean is the deepest point, reaching about 11,034 meters (36,201 feet)."
  , mkTF 14 "technology" "easy" "HTML stands for HyperText Markup Language."
      true "Yes, HTML stands for HyperText Markup Language."
  , mkMC 15 "technology" "easy" "What does CPU stand for?"
      ["Central Processing Unit", "Computer Personal Unit", "Central Program Utility", "Computer Processing Unit"] 0
      "CPU stands for Central Processing Unit, the main processor in a computer."
  , mkMC 16 "technology" "medium" "Which programming language was created by Guido van Rossum?"
      ["Java", "Python", "JavaScript", "C++"] 1
      "Python was created by Guido van Rossum and first released in 1991."
  , mkMC 17 "technology" "hard" "What is the time complexity of binary search?"
      ["O(n)", "O(log n)", "O(n log n)", "O(1)"] 1
      "Binary search has O(log n) time complexity because it eliminates half of the search space in each iteration." ]

/-- The category/difficulty filter of the fallback provider
(lines 709-715); `none` models a JS-falsy filter value (null, undefined or
the empty string), which skips that filter. -/
def fallbackFilter (category difficulty : Option String) : List Question :=
  let f1 := match category with
    | none => fallbackQuestions
    | some c => fallbackQuestions.filter (fun q => q.category == c)
  match difficulty with
  | none => f1
  | some d => f1.filter (fun q => q.difficulty == d)

/-- The repeat-padding loop (lines 720-726): entry `i` copies
`filtered[i % filtered.length]` with id offset by `i * 1000`.  When
`filtered` is empty the JS index is `NaN`, the lookup yields `undefined`
and reading `.id` throws a `TypeError` — modeled by `List.get?` returning
`none` (`i % 0 = i` and any index misses the empty list). -/
def repeatPadGo (filtered : List Question) : Nat → Nat → Except String (List Question)
  | 0, _ => .ok []
  | n + 1, i =>
    match filtered[i % filtered.length]? with
    | none => .error "TypeError: cannot read properties of undefined (reading id)"
    | some q =>
      (repeatPadGo filtered n (i + 1)).map
        (fun rest => ({ q with id := q.id + (i : Int) * 1000 }) :: rest)

/-- The fallback provider `generateFallbackQuestions` (lines 526-731):
filter the static table, repeat-pad when the filter leaves fewer than
`count`, otherwise truncate to `count`. -/
def generateFallbackQuestions (category difficulty : Option String) (count : Nat) :
    Except String (List Question) :=
  let filtered := fallbackFilter category difficulty
  if filtered.length < count then repeatPadGo filtered count 0
  else .ok (filtered.take count)

/-- Outcome of one `fetch` of the repo questions file: a transport-level
rejection, or a response with an HTTP status and a body (`none` = the body
was not valid JSON, so `response.json()` rejects). -/
inductive FetchOutcome where
  | transportError
  | resp (status : Nat) (body : Option Json)

/-- Model of `Response.ok`: status in the 2xx range. -/
def respOk (status : Nat) : Bool := 200 ≤ status && status < 300

/-- The body of the `try` in `loadQuestionsFromRepo`
(`huggingFaceRepoService.js` lines 1074-1093): on a 2xx response parse the
body (the `console.log` of `questions.length` throws on a `null` body),
return it when it is an array and `[]` otherwise; a 404 or any other
non-2xx status falls through to the final `return []`. -/
def loadRepoBody (o : FetchOutcome) : Except String (List Json) :=
  match o with
  | .transportError => .error "NetworkError: failed to fetch"
  | .resp status body =>
    if respOk status then
      match body with
      | none => .error "SyntaxError: unexpected token in JSON"
      | some .null => .error "TypeError: cannot read properties of null (reading length)"
      | some (.arr xs) => .ok xs
      | some _ => .ok []
    else .ok []

/-- Load model `loadQuestionsFromRepo` (lines 1069-1096): every failure inside the
`try` is caught and the function returns `[]`. -/
def loadQuestionsFromRepo (o : FetchOutcome) : Except String (List Json) :=
  match loadRepoBody o with
  | .ok l => .ok l
  | .error _ => .ok []

/-- Filter a list of raw JSON questions by a string field
(`q.<key> === value`); a `null` element makes the property access throw. -/
def filterJsonByField (key val : String) : List Json → Except String (List Json)
  | [] => .ok []
  | q :: rest => do
    let v ← getProp q key
    let r ← filterJsonByField key val rest
    let keep := match v with | some (.str s) => s == val | _ => false
    .ok (if keep then q :: r else r)

/-- Filter model `filterQuestionsFromRepo` (lines 1105-1119): filter by category and
difficulty (each skipped when falsy), shuffle (the `sort` with a random
comparator, modeled as an environment-supplied rearrangement) and truncate
to `count`. -/
def filterQuestionsFromRepo (questions : List Json) (category difficulty : Option String)
    (count : Nat) (shuffle : List Json → List Json) : Except String (List Json) := do
  let f1 ← match category with
    | none => Except.ok questions
    | some c => filterJsonByField "category" c questions
  let f2 ← match difficulty with
    | none => Except.ok f1
    | some d => filterJsonByField "difficulty" d f1
  .ok ((shuffle f2).take count)

/-- The case-insensitive dedup key of an entry
(`q.question?.toLowerCase().trim()`, line 955): `none` when the `question`
property is absent or `null`; a `TypeError` when it is a non-string;
otherwise the lower-cased trimmed text. -/
def dedupKey (q : Json) : Except String (Option String) := do
  let v ← getProp q "question"
  match v with
  | none => .ok none
  | some .null => .ok none
  | some (.str s) => .ok (some (jsTrim (jsToLower s)))
  | some _ => .error "TypeError: toLowerCase is not a function"

/-- Collect the dedup keys of the existing entries (the `Set` at
line 955). -/
def mapKeysE : List Json → Except String (List (Option String))
  | [] => .ok []
  | q :: rest => do
    let k ← dedupKey q
    let ks ← mapKeysE rest
    .ok (k :: ks)

/-- The new-question predicate (lines 956-958): an entry is genuinely new
iff its key is a defined, non-empty text not already stored. -/
def keepNew (keySet : List String) (k : Option String) : Bool :=
  match k with
  | some t => t != "" && !(keySet.contains t)
  | none => false

/-- The new-question filter (lines 956-959). -/
def filterNewE (keySet : List String) : List Json → Except String (List Json)
  | [] => .ok []
  | q :: rest => do
    let k ← dedupKey q
    let r ← filterNewE keySet rest
    .ok (if keepNew keySet k then q :: r else r)

/-- Decode the stored file into the `existingQuestions` list
(lines 923-952): absent (404), non-2xx, invalid or non-array content all
start fresh with `[]`. -/
def decodeStore : Option Json → List Json
  | some (.arr xs) => xs
  | _ => []

/-- Save model `saveQuestionsToRepo` (lines 911-979) as a state transformer on the
stored file: load existing content, drop incoming entries whose question
text (case-insensitive, trimmed) is already stored, skip the commit when
nothing new remains, otherwise commit the merged array.  The returned
`Bool` records whether a commit was performed; `commitOk = false` models a
failing commit endpoint (the error is re-thrown, line 977). -/
def saveQuestionsToRepo (file : Option Json) (questions : List Json) (commitOk : Bool) :
    Except String (Bool × Option Json) := do
  let existing := decodeStore file
  let keys ← mapKeysE existing
  let keySet := keys.filterMap id
  let newQs ← filterNewE keySet questions
  if newQs.length = 0 then .ok (false, file)
  else
    let all := existing ++ newQs
    if commitOk then .ok (true, some (.arr all))
    else .error "Hugging Face API error: commit failed"

/-- Outcome of one inference POST: a transport rejection, a non-2xx
response (body `none` = unparseable, replaced by the empty object), or a
2xx response (body `none` = `response.json()` rejects). -/
inductive InfOutcome where
  | netError
  | httpError (body : Option Json)
  | success (body : Option Json)

/-- The external world of one orchestrator run: configuration flags, the
repo-lookup race outcome, the shuffle used by the repo filter, the
response of the `n`-th inference POST, and the clock. -/
structure Env where
  apiToken : Bool
  repoId : Bool
  repoTimedOut : Bool
  repoFetch : FetchOutcome
  shuffle : List Json → List Json
  infer : Nat → InfOutcome
  now : Int
  ts : String

/-- JS truthiness of a string argument as an `Option` (empty = falsy). -/
def jsStrOpt (s : String) : Option String := if s = "" then none else some s

/-- Serialize a `Question` record for returning/merging (properties that
are `undefined` in JS disappear on serialization). -/
def Question.toJson (q : Question) : Json :=
  .obj ([("id", .num q.id), ("category", .str q.category),
         ("difficulty", .str q.difficulty), ("type", q.type)]
    ++ (match q.question with | some j => [("question", j)] | none => [])
    ++ (match q.options with | some j => [("options", j)] | none => [])
    ++ (match q.correct with | some j => [("correct", j)] | none => [])
    ++ [("explanation", q.explanation)]
    ++ (match q.source with | some s => [("source", .str s)] | none => [])
    ++ (match q.generatedAt with | some s => [("generatedAt", .str s)] | none => []))

/-- The fallback result as the orchestrator returns it. -/
def fallbackResult (category : Option String) (difficulty : String) (count : Nat) :
    Except String (List Json) :=
  (generateFallbackQuestions category (jsStrOpt difficulty) count).map (·.map Question.toJson)

/-- The initial dataset-repo lookup (lines 220-242): the 2-second
`Promise.race`, the load, the filter and the `>= count` hit test, with the
whole stage wrapped in a `catch` that falls through to the API path.
`some hit` is the early `return filtered`; `none` means the orchestrator
continues. -/
def repoStage (env : Env) (category : Option String) (difficulty : String) (count : Nat) :
    Option (List Json) :=
  if env.repoId && env.apiToken then
    if env.repoTimedOut then none
    else
      match loadQuestionsFromRepo env.repoFetch with
      | .error _ => none
      | .ok rq =>
        if 0 < rq.length then
          match filterQuestionsFromRepo rq category (jsStrOpt difficulty) count env.shuffle with
          | .error _ => none
          | .ok filtered => if count ≤ filtered.length then some filtered else none
        else none
  else none

/-- Model of `.trim()` on a value already known truthy: a string trims, anything
else throws. -/
def jsTrimTruthy (v : Option Json) : Except String String :=
  match v with
  | some (.str s) => .ok (jsTrim s)
  | _ => .error "TypeError: trim is not a function"

/-- Normalize the response envelope into the generated text
(lines 374-391): an array carrying `generated_text` or `text` on its first
element (falling through to the empty string), or an object carrying
`generated_text` or a `0` property, else an unexpected-format error. -/
def extractContent (data : Json) : Except String String :=
  match data with
  | .arr elems => do
    let g ← getPropChain elems.head? "generated_text"
    if truthyO g then jsTrimTruthy g
    else do
      let t ← getPropChain elems.head? "text"
      if truthyO t then jsTrimTruthy t
      else .ok ""
  | _ => do
    let g ← getProp data "generated_text"
    if truthyO g then jsTrimTruthy g
    else do
      let z ← getProp data "0"
      let g2 ← getPropChain z "generated_text"
      if truthyO g2 then jsTrimTruthy g2
      else .error "Unexpected response format from Hugging Face API"

/-- Result of the body of the orchestrator's `try` for one inference
attempt: either the model-loading retry branch was taken, or the attempt
finished with a value or a thrown error. -/
inductive TryOut where
  | retryNeeded
  | value (r : Except String (List Json))

/-- One pass through the orchestrator's `try` block (lines 252-503,
without the retry recursion): POST to the inference endpoint, recognize
the model-loading retry case (line 360), fail on other HTTP errors,
normalize the envelope, require non-empty text, then parse and format.
The fire-and-forget repo save does not influence the returned value. -/
def tryBody (env : Env) (category : Option String) (difficulty : String)
    (count : Nat) (attempt : Nat) : TryOut :=
  match env.infer attempt with
  | .netError => .value (.error "Network error: failed to fetch")
  | .httpError body =>
    let errorData := body.getD (.obj [])
    match getProp errorData "error" with
    | .error e => .value (.error e)
    | .ok v =>
      if truthyO v then
        match v with
        | some (.str s) =>
          if containsSub s "loading" then .retryNeeded
          else .value (.error "Hugging Face API error")
        | _ => .value (.error "TypeError: includes is not a function")
      else .value (.error "Hugging Face API error")
  | .success none => .value (.error "SyntaxError: unexpected token in JSON")
  | .success (some data) =>
    match extractContent data with
    | .error e => .value (.error e)
    | .ok content =>
      if content = "" then
        .value (.error "No generated text in response from Hugging Face API")
      else
        .value ((parseQuestionsText content category difficulty count env.now env.ts).map
          (·.map Question.toJson))

/-- Does an inference outcome trigger the model-loading retry
(`errorData.error && errorData.error.includes('loading')`)? -/
def isLoadingOutcome (o : InfOutcome) : Bool :=
  match o with
  | .httpError body =>
    match getProp (body.getD (.obj [])) "error" with
    | .ok (some (.str s)) => s != "" && containsSub s "loading"
    | _ => false
  | _ => false

/-- The orchestrator `generateQuestionsWithAI` (lines 213-523), fueled to
expose the unbounded model-loading retry recursion (line 364 re-invokes
the whole function, repo lookup included, inside the `try`): `none` means
the fuel ran out, i.e. the run was still retrying.  The `catch`
(lines 505-522) turns every thrown error — including one thrown by a
rejected retry — into the fallback result, whose own failure escapes to
the caller. -/
def generateQuestionsWithAI (env : Env) (category : Option String) (difficulty : String)
    (count : Nat) : Nat → Nat → Option (Except String (List Json))
  | 0, _ => none
  | fuel + 1, attempt =>
    match repoStage env category difficulty count with
    | some hit => some (.ok hit)
    | none =>
      if !env.apiToken then some (fallbackResult category difficulty count)
      else
        match tryBody env category difficulty count attempt with
        | .retryNeeded =>
          match generateQuestionsWithAI env category difficulty count fuel (attempt + 1) with
          | none => none
          | some (.ok l) => some (.ok l)
          | some (.error _) => some (fallbackResult category difficulty count)
        | .value (.ok l) => some (.ok l)
        | .value (.error _) => some (fallbackResult category difficulty count)

/-- The orchestrator entry point: run with the given fuel from attempt 0. -/
def getQuestions (env : Env) (category : Option String) (difficulty : String)
    (count : Nat) (fuel : Nat) : Option (Except String (List Json)) :=
  generateQuestionsWithAI env category difficulty count fuel 0

/-- One step of the fueled orchestrator (the successor-fuel equation, used
to unfold exactly one attempt at a time in proofs). -/
theorem genQ_step (env : Env) (category : Option String) (difficulty : String)
    (count : Nat) (fuel attempt : Nat) :
    generateQuestionsWithAI env category difficulty count (fuel + 1) attempt =
      match repoStage env category difficulty count with
      | some hit => some (.ok hit)
      | none =>
        if !env.apiToken then some (fallbackResult category difficulty count)
        else
          match tryBody env category difficulty count attempt with
          | .retryNeeded =>
            match generateQuestionsWithAI env category difficulty count fuel
                (attempt + 1) with
            | none => none
            | some (.ok l) => some (.ok l)
            | some (.error _) => some (fallbackResult category difficulty count)
          | .value (.ok l) => some (.ok l)
          | .value (.error _) => some (fallbackResult category difficulty count) := rfl

/-- Did an `Except` computation succeed? -/
def isOkE : Except ε α → Bool
  | .ok _ => true
  | .error _ => false

/-- C9: `loadQuestionsFromRepo` never propagates a failure: it resolves
with a (possibly empty) sequence for every fetch outcome, and resolves
with the empty sequence on 404, on every other non-2xx status, and on a
transport error. -/
theorem load_never_fails :
    (∀ o : FetchOutcome, isOkE (loadQuestionsFromRepo o) = true) ∧
    (∀ body, loadQuestionsFromRepo (.resp 404 body) = .ok []) ∧
    (∀ st body, respOk st = false → loadQuestionsFromRepo (.resp st body) = .ok []) ∧
    loadQuestionsFromRepo .transportError = .ok [] := by
  have hnon : ∀ st body, respOk st = false → loadQuestionsFromRepo (.resp st body) = .ok [] := by
    intro st body h
    simp [loadQuestionsFromRepo, loadRepoBody, h]
  refine ⟨?_, ?_, hnon, rfl⟩
  · intro o
    cases o with
    | transportError => rfl
    | resp st body =>
      by_cases h : respOk st = true
      · rcases body with _ | j
        · simp [loadQuestionsFromRepo, loadRepoBody, h, isOkE]
        · cases j <;> simp [loadQuestionsFromRepo, loadRepoBody, h, isOkE]
      · rw [hnon st body (by simpa using h)]
        rfl
  · intro body
    exact hnon 404 body (by decide)

/-- Witness for C9 at a concrete non-success status. -/
theorem load_never_fails_witness :
    respOk 500 = false ∧ loadQuestionsFromRepo (.resp 500 (some (.arr []))) = .ok [] :=
  ⟨by decide, load_never_fails.2.2.1 500 (some (.arr [])) (by decide)⟩

/-- C5: the claim says the fallback provider returns the empty sequence
when the filtered table is empty; the code instead evaluates
`filtered[i % filtered.length].id` on the empty array (`i % 0` is `NaN`,
the lookup is `undefined`) and throws a `TypeError`.  Evaluating the model
at the concrete failing input (category `"mixed"`, difficulty `"easy"`,
count 1, whose filtered table is empty) exhibits the thrown error. -/
theorem fallback_empty_filter_throws :
    fallbackFilter (some "mixed") (some "easy") = [] ∧
    generateFallbackQuestions (some "mixed") (some "easy") 1 =
      .error "TypeError: cannot read properties of undefined (reading id)" :=
  ⟨rfl, rfl⟩

theorem truthy_jsOr (v : Option Json) (d : Json) (hd : truthy d = true) :
    truthy (jsOr v d) = true := by
  cases v with
  | none => simp [jsOr, hd]
  | some j =>
    by_cases h : truthy j = true
    · simp [jsOr, h]
    · simp only [jsOr, Bool.not_eq_true] at h ⊢
      simp [h, hd]

theorem formatOne_ok (e : Json) (category : Option String) (difficulty : String)
    (now : Int) (ts : String) (i : Nat) (q : Question)
    (h : formatOne e category difficulty now ts i = .ok q) :
    q.category = category.getD "mixed" ∧ q.difficulty = difficulty ∧
    truthy q.type = true ∧ truthyO q.options = true ∧ truthy q.explanation = true := by
  unfold formatOne at h
  simp only [bind, Except.bind] at h
  cases h1 : getProp e "type" with
  | error err => rw [h1] at h; exact absurd h (by simp)
  | ok ty =>
    rw [h1] at h
    cases h2 : getProp e "question" with
    | error err => rw [h2] at h; exact absurd h (by simp)
    | ok qu =>
      rw [h2] at h
      cases h3 : getProp e "options" with
      | error err => rw [h3] at h; exact absurd h (by simp)
      | ok op =>
        rw [h3] at h
        cases h4 : getProp e "correct" with
        | error err => rw [h4] at h; exact absurd h (by simp)
        | ok co =>
          rw [h4] at h
          cases h5 : getProp e "explanation" with
          | error err => rw [h5] at h; exact absurd h (by simp)
          | ok ex =>
            rw [h5] at h
            simp only [Except.ok.injEq] at h
            subst h
            refine ⟨rfl, rfl, ?_, ?_, ?_⟩
            · exact truthy_jsOr ty _ (by decide)
            · simpa [truthyO] using truthy_jsOr op (.arr []) rfl
            · exact truthy_jsOr ex _ (by decide)

theorem formatList_props (category : Option String) (difficulty : String)
    (now : Int) (ts : String) :
    ∀ (es : List Json) (i : Nat) (l : List Question),
      formatList category difficulty now ts i es = .ok l →
      l.length = es.length ∧
      ∀ q ∈ l, q.category = category.getD "mixed" ∧ q.difficulty = difficulty ∧
        truthy q.type = true ∧ truthyO q.options = true ∧ truthy q.explanation = true := by
  intro es
  induction es with
  | nil =>
    intro i l h
    simp only [formatList, Except.ok.injEq] at h
    subst h
    simp
  | cons e rest ih =>
    intro i l h
    simp only [formatList, bind, Except.bind] at h
    cases h1 : formatOne e category difficulty now ts i with
    | error err => rw [h1] at h; exact absurd h (by simp)
    | ok q0 =>
      rw [h1] at h
      cases h2 : formatList category difficulty now ts (i + 1) rest with
      | error err => rw [h2] at h; exact absurd h (by simp)
      | ok l' =>
        rw [h2] at h
        simp only [Except.ok.injEq] at h
        subst h
        obtain ⟨hlen, hmem⟩ := ih (i + 1) l' h2
        refine ⟨by simpa using hlen, ?_⟩
        intro q hq
        rcases List.mem_cons.mp hq with hq | hq
        · subst hq
          exact formatOne_ok e category difficulty now ts i q h1
        · exact hmem q hq

/-- The schema pairing that C1 asserts of every parsed question: a known
type tag; four options and an integer answer index in `[0, 4)` for
multiple-choice; a boolean answer for true-false. -/
def questionSchemaOK (q : Question) : Bool :=
  match q.type with
  | .str t =>
    if t = "multiple-choice" then
      (match q.options with | some (.arr l) => l.length == 4 | _ => false) &&
      (match q.correct with | some (.num i) => decide (0 ≤ i ∧ i < 4) | _ => false)
    else if t = "true-false" then
      match q.correct with | some (.bool _) => true | _ => false
    else false
  | _ => false

/-- A model entry that violates the schema: multiple-choice with no
options and answer index 7. -/
def badEntry : Json :=
  .obj [("type", .str "multiple-choice"), ("question", .str "Q"), ("correct", .num 7)]

/-- The question the formatting step builds from `badEntry`. -/
def badFormatted : Question :=
  { id := 0, category := "science", difficulty := "easy"
    type := .str "multiple-choice", question := some (.str "Q")
    options := some (.arr []), correct := some (.num 7)
    explanation := .str "No explanation provided."
    source := some "ai-generated", generatedAt := some "T" }

/-- C1 counterexample: the formatting step of the parser returns
`badFormatted` — a multiple-choice question with zero options and answer
index 7 — instead of dropping the malformed entry, so the type/correct/
options pairing does not hold of the parser's output. -/
theorem parseQuestions_schema_counterexample :
    formatQuestions [badEntry] (some "science") "easy" 5 0 "T" = .ok [badFormatted] ∧
    questionSchemaOK badFormatted = false :=
  ⟨rfl, rfl⟩

/-- C1 (amended): the formatting step does not validate the
type/correct/options pairing and does not drop malformed entries; what it
guarantees is weaker — every returned question carries the requested
category (`'mixed'` for null) and difficulty, a truthy type (defaulting to
`'multiple-choice'`), a present options value (defaulting to `[]`) and a
truthy explanation (defaulting to a placeholder), while `question` and
`correct` pass through unvalidated. -/
theorem parseQuestions_defaults_amended (entries : List Json) (category : Option String)
    (difficulty : String) (count : Nat) (now : Int) (ts : String) (l : List Question)
    (h : formatQuestions entries category difficulty count now ts = .ok l) :
    ∀ q ∈ l, q.category = category.getD "mixed" ∧ q.difficulty = difficulty ∧
      truthy q.type = true ∧ truthyO q.options = true ∧ truthy q.explanation = true :=
  (formatList_props category difficulty now ts (entries.take count) 0 l h).2

/-- Witness for the amended C1 at the concrete malformed entry. -/
theorem parseQuestions_defaults_amended_witness :
    badFormatted.category = "science" ∧ badFormatted.difficulty = "easy" ∧
    truthy badFormatted.type = true ∧ truthyO badFormatted.options = true ∧
    truthy badFormatted.explanation = true :=
  parseQuestions_defaults_amended [badEntry] (some "science") "easy" 5 0 "T"
    [badFormatted] rfl badFormatted (List.mem_singleton.mpr rfl)

/-- C6: for every parsed model output array, the formatting step returns
at most `count` questions (surplus entries are discarded by the
truncation) and every returned question carries the requested category
(null mapped to `'mixed'`) and the requested difficulty, overriding
whatever the model emitted for those fields. -/
theorem parseQuestions_truncates_and_overrides (entries : List Json)
    (category : Option String) (difficulty : String) (count : Nat) (now : Int)
    (ts : String) (l : List Question)
    (h : formatQuestions entries category difficulty count now ts = .ok l) :
    l.length ≤ count ∧
    ∀ q ∈ l, q.category = category.getD "mixed" ∧ q.difficulty = difficulty := by
  obtain ⟨hlen, hmem⟩ := formatList_props category difficulty now ts (entries.take count) 0 l h
  refine ⟨?_, fun q hq => ⟨(hmem q hq).1, (hmem q hq).2.1⟩⟩
  rw [hlen, List.length_take]
  exact Nat.min_le_left _ _

/-- A well-formed true-false entry used as the C6 witness input. -/
def tfEntry : Json :=
  .obj [("type", .str "true-false"), ("question", .str "Q1"), ("correct", .bool true),
        ("explanation", .str "E1"), ("category", .str "bogus"), ("difficulty", .str "bogus")]

/-- The question the formatting step builds from `tfEntry` for a null
category and difficulty `"hard"`. -/
def tfFormatted : Question :=
  { id := 9, category := "mixed", difficulty := "hard"
    type := .str "true-false", question := some (.str "Q1")
    options := some (.arr []), correct := some (.bool true)
    explanation := .str "E1", source := some "ai-generated", generatedAt := some "T" }

/-- Witness for C6: one entry, count 1, category overridden to `'mixed'`
and difficulty to `"hard"` even though the model emitted others. -/
theorem parseQuestions_truncates_and_overrides_witness :
    [tfFormatted].length ≤ 1 ∧
    ∀ q ∈ [tfFormatted], q.category = (none : Option String).getD "mixed" ∧
      q.difficulty = "hard" :=
  parseQuestions_truncates_and_overrides [tfEntry, tfEntry] none "hard" 1 9 "T"
    [tfFormatted] rfl

theorem fallbackFilter_sublist (c d : Option String) :
    (fallbackFilter c d).Sublist fallbackQuestions := by
  simp only [fallbackFilter]
  cases c with
  | none =>
    cases d with
    | none => exact List.Sublist.refl _
    | some dv => exact List.filter_sublist _
  | some cv =>
    cases d with
    | none => exact List.filter_sublist _
    | some dv => exact (List.filter_sublist _).trans (List.filter_sublist _)

theorem fallback_ids_nodup : (fallbackQuestions.map Question.id).Nodup := by decide

theorem fallback_ids_bounds : ∀ q ∈ fallbackQuestions, 1 ≤ q.id ∧ q.id ≤ 17 := by decide

/-- The id the repeat-padding loop assigns to output position `j`. -/
def idAt (filtered : List Question) (j : Nat) : Int :=
  match filtered[j % filtered.length]? with
  | some q => q.id + (j : Int) * 1000
  | none => 0

theorem repeatPadGo_ok (filtered : List Question) (hne : filtered ≠ []) :
    ∀ (n i : Nat), ∃ l, repeatPadGo filtered n i = .ok l ∧
      l.length = n ∧ l.map Question.id = (List.range' i n).map (idAt filtered) := by
  intro n
  induction n with
  | zero => intro i; exact ⟨[], rfl, rfl, by simp⟩
  | succ n ih =>
    intro i
    have hlen : 0 < filtered.length := List.length_pos.mpr hne
    have hlt : i % filtered.length < filtered.length := Nat.mod_lt _ hlen
    obtain ⟨q, hq⟩ : ∃ q, filtered[i % filtered.length]? = some q :=
      ⟨_, List.getElem?_eq_getElem hlt⟩
    obtain ⟨l', h1, h2, h3⟩ := ih (i + 1)
    refine ⟨{ q with id := q.id + (i : Int) * 1000 } :: l', ?_, by simp [h2], ?_⟩
    · simp [repeatPadGo, hq, h1, Except.map]
    · simp [List.range'_succ, idAt, hq, h3]

theorem idAt_inj (filtered : List Question)
    (hsub : filtered.Sublist fallbackQuestions) (hne : filtered ≠ []) :
    Function.Injective (idAt filtered) := by
  intro i j h
  have hlen : 0 < filtered.length := List.length_pos.mpr hne
  have hi : i % filtered.length < filtered.length := Nat.mod_lt _ hlen
  have hj : j % filtered.length < filtered.length := Nat.mod_lt _ hlen
  unfold idAt at h
  rw [List.getElem?_eq_getElem hi, List.getElem?_eq_getElem hj] at h
  have hbi := fallback_ids_bounds _ (hsub.subset (List.getElem_mem hi))
  have hbj := fallback_ids_bounds _ (hsub.subset (List.getElem_mem hj))
  simp only at h
  omega

/-- Shared characterization of the fallback provider on a non-empty
filtered table: exactly `count` results with pairwise distinct ids. -/
theorem generateFallbackQuestions_spec (category difficulty : Option String)
    (count : Nat) (hne : fallbackFilter category difficulty ≠ []) :
    ∃ l, generateFallbackQuestions category difficulty count = .ok l ∧
      l.length = count ∧ (l.map Question.id).Nodup := by
  have hsub := fallbackFilter_sublist category difficulty
  by_cases hlt : (fallbackFilter category difficulty).length < count
  · obtain ⟨l, h1, h2, h3⟩ := repeatPadGo_ok (fallbackFilter category difficulty) hne count 0
    refine ⟨l, ?_, h2, ?_⟩
    · simp [generateFallbackQuestions, hlt, h1]
    · rw [h3]
      exact List.Nodup.map (idAt_inj _ hsub hne) (List.nodup_range' 0 count)
  · refine ⟨(fallbackFilter category difficulty).take count, ?_, ?_, ?_⟩
    · simp [generateFallbackQuestions, hlt]
    · rw [List.length_take]
      omega
    · exact List.Nodup.sublist
        (((List.take_sublist _ _).trans hsub).map Question.id) fallback_ids_nodup

/-- C4: whenever the static table filtered by the requested category and
difficulty is non-empty, the fallback provider returns exactly `count`
questions whose ids are pairwise distinct (repeated copies are re-id'd
with an offset of 1000 times their output position). -/
theorem fallback_count_and_unique_ids (category difficulty : Option String)
    (count : Nat) (_hc : 0 < count)
    (hne : fallbackFilter category difficulty ≠ []) :
    ∃ l, generateFallbackQuestions category difficulty count = .ok l ∧
      l.length = count ∧ (l.map Question.id).Nodup :=
  generateFallbackQuestions_spec category difficulty count hne

/-- Witness for C4 at science/easy with count 5 (which exercises the
repeat-padding branch: only two table entries match). -/
theorem fallback_count_and_unique_ids_witness :
    0 < 5 ∧ fallbackFilter (some "science") (some "easy") ≠ [] ∧
    ∃ l, generateFallbackQuestions (some "science") (some "easy") 5 = .ok l ∧
      l.length = 5 ∧ (l.map Question.id).Nodup := by
  have hne : fallbackFilter (some "science") (some "easy") ≠ [] := by
    intro h
    have h2 : (fallbackFilter (some "science") (some "easy")).length = 2 := rfl
    rw [h] at h2
    simp at h2
  exact ⟨by decide, hne, fallback_count_and_unique_ids _ _ 5 (by decide) hne⟩

theorem fenceJsonHead_imp_fenceHead (l : List Char) (h : fenceJsonHead l = true) :
    fenceHead l = true := by
  rcases l with _ | ⟨a, _ | ⟨b, _ | ⟨c, _ | ⟨d, _ | ⟨e, _ | ⟨f, _ | ⟨g, xs⟩⟩⟩⟩⟩⟩⟩ <;>
    simp [fenceJsonHead] at h
  simp [fenceHead]
  tauto

theorem splitFence_cons_none (c : Char) (rest : List Char)
    (h : splitFence (c :: rest) = none) :
    fenceHead (c :: rest) = false ∧ splitFence rest = none := by
  by_cases hf : fenceHead (c :: rest) = true
  · simp [splitFence, hf] at h
  · have hf' : fenceHead (c :: rest) = false := by simpa using hf
    refine ⟨hf', ?_⟩
    rw [splitFence, if_neg (by simp [hf'])] at h
    exact Option.map_eq_none'.mp h

theorem fenceHead_cons_append (c : Char) (tl suf : List Char)
    (h : fenceHead (c :: tl) = false) :
    fenceHead (c :: (tl ++ '\n' :: suf)) = false := by
  have hnl : ¬('\n' = btChar) := by decide
  rcases tl with _ | ⟨d, _ | ⟨e, tl'⟩⟩
  · rcases suf with _ | ⟨s, ss⟩ <;> simp [fenceHead, hnl]
  · simp [fenceHead, hnl]
  · simpa [fenceHead] using h

theorem splitFence_walk (tl : List Char) (h : splitFence tl = none) :
    splitFence (tl ++ '\n' :: btChar :: btChar :: btChar :: []) =
      some (tl ++ ['\n'], []) := by
  induction tl with
  | nil => rfl
  | cons c tl ih =>
    obtain ⟨hfh, hrest⟩ := splitFence_cons_none c tl h
    have hfh2 := fenceHead_cons_append c tl (btChar :: btChar :: btChar :: []) hfh
    rw [List.cons_append, splitFence, if_neg (by simp [hfh2]), ih hrest]
    simp

theorem splitFenceJson_of_splitFence_none (l : List Char) (h : splitFence l = none) :
    splitFenceJson l = none := by
  induction l with
  | nil => rfl
  | cons c rest ih =>
    obtain ⟨hfh, hrest⟩ := splitFence_cons_none c rest h
    have hfj : fenceJsonHead (c :: rest) = false := by
      cases hq : fenceJsonHead (c :: rest)
      · rfl
      · rw [fenceJsonHead_imp_fenceHead _ hq] at hfh
        exact absurd hfh (by simp)
    rw [splitFenceJson, if_neg (by simp [hfj]), ih hrest]
    rfl

theorem splitFenceJson_walk (tl : List Char) (h : splitFence tl = none) :
    splitFenceJson (tl ++ '\n' :: btChar :: btChar :: btChar :: []) = none := by
  induction tl with
  | nil => rfl
  | cons c tl ih =>
    obtain ⟨hfh, hrest⟩ := splitFence_cons_none c tl h
    have hfh2 := fenceHead_cons_append c tl (btChar :: btChar :: btChar :: []) hfh
    have hfj : fenceJsonHead (c :: (tl ++ '\n' :: btChar :: btChar :: btChar :: [])) = false := by
      cases hq : fenceJsonHead (c :: (tl ++ '\n' :: btChar :: btChar :: btChar :: []))
      · rfl
      · rw [fenceJsonHead_imp_fenceHead _ hq] at hfh2
        exact absurd hfh2 (by simp)
    rw [List.cons_append, splitFenceJson, if_neg (by simp [hfj]), ih hrest]
    rfl

theorem jsTrimL_sandwich (a : Char) (l : List Char) (b : Char)
    (ha : isWsChar a = false) (hb : isWsChar b = false) :
    jsTrimL (a :: l ++ [b]) = a :: l ++ [b] := by
  unfold jsTrimL trimLeftL
  rw [List.cons_append, List.dropWhile_cons, if_neg (by simp [ha])]
  have hrev : (a :: (l ++ [b])).reverse = b :: (l.reverse ++ [a]) := by simp
  rw [hrev, List.dropWhile_cons, if_neg (by simp [hb])]
  simp

theorem jsTrimL_nl_sandwich (a : Char) (l : List Char) (b : Char)
    (ha : isWsChar a = false) (hb : isWsChar b = false) :
    jsTrimL ('\n' :: ((a :: l ++ [b]) ++ ['\n'])) = a :: l ++ [b] := by
  unfold jsTrimL trimLeftL
  rw [List.dropWhile_cons, if_pos (by simp [isWsChar])]
  rw [List.cons_append, List.cons_append, List.dropWhile_cons, if_neg (by simp [ha])]
  have hrev : (a :: ((l ++ [b]) ++ ['\n'])).reverse = '\n' :: (b :: (l.reverse ++ [a])) := by
    simp
  rw [hrev, List.dropWhile_cons, if_pos (by simp [isWsChar]),
    List.dropWhile_cons, if_neg (by simp [hb])]
  simp

/-- Wrap a text in a fenced `json` code block (open tag, newline, text,
newline, closing fence). -/
def wrapFenceJson (t : String) : String :=
  String.mk (btChar :: btChar :: btChar :: 'j' :: 's' :: 'o' :: 'n' :: '\n' ::
    (t.toList ++ '\n' :: btChar :: btChar :: btChar :: []))

/-- Wrap a text in a plain fenced code block. -/
def wrapFencePlain (t : String) : String :=
  String.mk (btChar :: btChar :: btChar :: '\n' ::
    (t.toList ++ '\n' :: btChar :: btChar :: btChar :: []))

theorem fenceHead_of_ne (c : Char) (l : List Char) (hc : ¬(c = btChar)) :
    fenceHead (c :: l) = false := by
  rcases l with _ | ⟨x, _ | ⟨y, ys⟩⟩ <;> simp [fenceHead, hc]

theorem fenceJsonHead_of_ne1 (c : Char) (l : List Char) (hc : ¬(c = btChar)) :
    fenceJsonHead (c :: l) = false := by
  rcases l with _ | ⟨a, _ | ⟨b, _ | ⟨d, _ | ⟨e, _ | ⟨f, _ | ⟨g, xs⟩⟩⟩⟩⟩⟩ <;>
    simp [fenceJsonHead, hc]

theorem fenceJsonHead_of_ne2 (c₁ c : Char) (l : List Char) (hc : ¬(c = btChar)) :
    fenceJsonHead (c₁ :: c :: l) = false := by
  rcases l with _ | ⟨a, _ | ⟨b, _ | ⟨d, _ | ⟨e, _ | ⟨f, xs⟩⟩⟩⟩⟩ <;>
    simp [fenceJsonHead, hc]

theorem fenceJsonHead_of_ne3 (c₁ c₂ c : Char) (l : List Char) (hc : ¬(c = btChar)) :
    fenceJsonHead (c₁ :: c₂ :: c :: l) = false := by
  rcases l with _ | ⟨a, _ | ⟨b, _ | ⟨d, _ | ⟨e, xs⟩⟩⟩⟩ <;>
    simp [fenceJsonHead, hc]

theorem fenceJsonHead_of_ne4 (c₁ c₂ c₃ c : Char) (l : List Char) (hc : ¬(c = 'j')) :
    fenceJsonHead (c₁ :: c₂ :: c₃ :: c :: l) = false := by
  rcases l with _ | ⟨a, _ | ⟨b, _ | ⟨d, xs⟩⟩⟩ <;>
    simp [fenceJsonHead, hc]

theorem jsTrim_fix_of_shape (t : String) (mid : List Char)
    (hshape : t.toList = '[' :: mid ++ [']']) :
    jsTrimL t.toList = t.toList := by
  rw [hshape]
  exact jsTrimL_sandwich '[' mid ']' (by decide) (by decide)

theorem extract_unwrapped (t : String) (mid : List Char)
    (hshape : t.toList = '[' :: mid ++ [']'])
    (hnf : splitFence t.toList = none) :
    extractJsonContentL (jsTrimL t.toList) = t.toList := by
  have htrim := jsTrim_fix_of_shape t mid hshape
  have hfj := splitFenceJson_of_splitFence_none _ hnf
  rw [htrim]
  unfold extractJsonContentL
  rw [hfj, hnf]
  simp only [Option.isSome_none, Bool.false_eq_true, if_false]
  rw [htrim, hshape]
  simp [List.cons_append]

theorem extract_wrapped_json (t : String) (mid : List Char)
    (hshape : t.toList = '[' :: mid ++ [']'])
    (hnf : splitFence t.toList = none) :
    extractJsonContentL (jsTrimL (wrapFenceJson t).toList) = t.toList := by
  have htrim := jsTrim_fix_of_shape t mid hshape
  have htrimW : jsTrimL (wrapFenceJson t).toList = (wrapFenceJson t).toList := by
    have hsh : (wrapFenceJson t).toList =
        btChar :: (btChar :: btChar :: 'j' :: 's' :: 'o' :: 'n' :: '\n' ::
          (t.toList ++ ['\n', btChar, btChar])) ++ [btChar] := by
      simp [wrapFenceJson]
    rw [hsh]
    exact jsTrimL_sandwich btChar _ btChar (by decide) (by decide)
  have h1 : splitFenceJson (btChar :: btChar :: btChar :: 'j' :: 's' :: 'o' :: 'n' :: '\n' ::
      (t.toList ++ '\n' :: btChar :: btChar :: btChar :: [])) =
      some ([], '\n' :: (t.toList ++ '\n' :: btChar :: btChar :: btChar :: [])) := by
    rw [splitFenceJson, if_pos (by simp [fenceJsonHead])]
    rfl
  have hnf2 : splitFence ('\n' :: t.toList) = none := by
    rw [splitFence, if_neg (by simp [fenceHead_of_ne '\n' _ (by decide)]), hnf]
    rfl
  have h2 : splitFence ('\n' :: (t.toList ++ '\n' :: btChar :: btChar :: btChar :: [])) =
      some (('\n' :: t.toList) ++ ['\n'], []) := by
    have hw := splitFence_walk ('\n' :: t.toList) hnf2
    rwa [List.cons_append] at hw
  have h3 : jsTrimL (('\n' :: t.toList) ++ ['\n']) = t.toList := by
    rw [List.cons_append, hshape]
    exact jsTrimL_nl_sandwich '[' mid ']' (by decide) (by decide)
  rw [htrimW]
  show extractJsonContentL (btChar :: btChar :: btChar :: 'j' :: 's' :: 'o' :: 'n' :: '\n' ::
    (t.toList ++ '\n' :: btChar :: btChar :: btChar :: [])) = _
  unfold extractJsonContentL
  simp only [h1, Option.isSome_some, if_true, h2, h3, htrim]
  rw [hshape]
  simp [List.cons_append]

theorem extract_wrapped_plain (t : String) (mid : List Char)
    (hshape : t.toList = '[' :: mid ++ [']'])
    (hnf : splitFence t.toList = none) :
    extractJsonContentL (jsTrimL (wrapFencePlain t).toList) = t.toList := by
  have htrim := jsTrim_fix_of_shape t mid hshape
  have htrimW : jsTrimL (wrapFencePlain t).toList = (wrapFencePlain t).toList := by
    have hsh : (wrapFencePlain t).toList =
        btChar :: (btChar :: btChar :: '\n' ::
          (t.toList ++ ['\n', btChar, btChar])) ++ [btChar] := by
      simp [wrapFencePlain]
    rw [hsh]
    exact jsTrimL_sandwich btChar _ btChar (by decide) (by decide)
  have s0 : splitFenceJson (t.toList ++ '\n' :: btChar :: btChar :: btChar :: []) = none :=
    splitFenceJson_walk _ hnf
  have s1 : splitFenceJson ('\n' :: (t.toList ++ '\n' :: btChar :: btChar :: btChar :: [])) =
      none := by
    rw [splitFenceJson, if_neg (by simp [fenceJsonHead_of_ne1 '\n' _ (by decide)]), s0]
    rfl
  have s2 : splitFenceJson (btChar :: '\n' ::
      (t.toList ++ '\n' :: btChar :: btChar :: btChar :: [])) = none := by
    rw [splitFenceJson, if_neg (by simp [fenceJsonHead_of_ne2 btChar '\n' _ (by decide)]), s1]
    rfl
  have s3 : splitFenceJson (btChar :: btChar :: '\n' ::
      (t.toList ++ '\n' :: btChar :: btChar :: btChar :: [])) = none := by
    rw [splitFenceJson, if_neg (by simp [fenceJsonHead_of_ne3 btChar btChar '\n' _ (by decide)]),
      s2]
    rfl
  have s4 : splitFenceJson (btChar :: btChar :: btChar :: '\n' ::
      (t.toList ++ '\n' :: btChar :: btChar :: btChar :: [])) = none := by
    rw [splitFenceJson,
      if_neg (by simp [fenceJsonHead_of_ne4 btChar btChar btChar '\n' _ (by decide)]), s3]
    rfl
  have hnf2 : splitFence ('\n' :: t.toList) = none := by
    rw [splitFence, if_neg (by simp [fenceHead_of_ne '\n' _ (by decide)]), hnf]
    rfl
  have h2 : splitFence ('\n' :: (t.toList ++ '\n' :: btChar :: btChar :: btChar :: [])) =
      some (('\n' :: t.toList) ++ ['\n'], []) := by
    have hw := splitFence_walk ('\n' :: t.toList) hnf2
    rwa [List.cons_append] at hw
  have h1 : splitFence (btChar :: btChar :: btChar :: '\n' ::
      (t.toList ++ '\n' :: btChar :: btChar :: btChar :: [])) =
      some ([], '\n' :: (t.toList ++ '\n' :: btChar :: btChar :: btChar :: [])) := by
    rw [splitFence, if_pos (by simp [fenceHead])]
    rfl
  have h3 : jsTrimL (('\n' :: t.toList) ++ ['\n']) = t.toList := by
    rw [List.cons_append, hshape]
    exact jsTrimL_nl_sandwich '[' mid ']' (by decide) (by decide)
  rw [htrimW]
  show extractJsonContentL (btChar :: btChar :: btChar :: '\n' ::
    (t.toList ++ '\n' :: btChar :: btChar :: btChar :: [])) = _
  unfold extractJsonContentL
  simp only [s4, Option.isSome_none, Bool.false_eq_true, if_false, h1, Option.isSome_some,
    if_true, h2, h3, htrim]
  rw [hshape]
  simp [List.cons_append]

/-- C7 (amended): for a JSON array text that contains no triple-backtick
fence, wrapping it in a fenced code block (`json`-tagged or plain) does
not change the outcome of the response parser.  (The fence-free condition
is forced by the counterexample below: a bracketed text containing a fence
parses differently wrapped and unwrapped.) -/
theorem fence_wrapping_invariant_amended (t : String) (mid : List Char)
    (hshape : t.toList = '[' :: mid ++ [']'])
    (hnf : splitFence t.toList = none)
    (category : Option String) (difficulty : String) (count : Nat) (now : Int)
    (ts : String) :
    parseQuestionsText (wrapFenceJson t) category difficulty count now ts =
      parseQuestionsText t category difficulty count now ts ∧
    parseQuestionsText (wrapFencePlain t) category difficulty count now ts =
      parseQuestionsText t category difficulty count now ts := by
  have e0 := extract_unwrapped t mid hshape hnf
  have e1 := extract_wrapped_json t mid hshape hnf
  have e2 := extract_wrapped_plain t mid hshape hnf
  constructor
  · unfold parseQuestionsText
    simp only [e1, e0]
  · unfold parseQuestionsText
    simp only [e2, e0]

/-- Witness for the amended C7 at the concrete array text `"[]"`. -/
theorem fence_wrapping_invariant_amended_witness :
    "[]".toList = '[' :: [] ++ [']'] ∧ splitFence "[]".toList = none ∧
    (parseQuestionsText (wrapFenceJson "[]") (some "science") "easy" 5 0 "T" =
       parseQuestionsText "[]" (some "science") "easy" 5 0 "T" ∧
     parseQuestionsText (wrapFencePlain "[]") (some "science") "easy" 5 0 "T" =
       parseQuestionsText "[]" (some "science") "easy" 5 0 "T") :=
  ⟨rfl, rfl,
    fence_wrapping_invariant_amended "[]" [] rfl rfl (some "science") "easy" 5 0 "T"⟩

/-- A valid JSON array text that itself contains a fenced-`json` opening
tag inside a string literal. -/
def backtickArrayText : String := "[\"```json\"]"

/-- C7 counterexample: on `backtickArrayText` the unwrapped parse succeeds
(the global fence deletion mangles the string element to `""` but the
result still parses), while the `json`-fence-wrapped parse fails (the lazy
closing-fence search truncates the payload to an unparseable prefix) — so
wrapping is not transparent for every JSON array text. -/
theorem fence_wrapping_counterexample :
    isOkE (parseQuestionsText backtickArrayText none "easy" 5 0 "T") = true ∧
    isOkE (parseQuestionsText (wrapFenceJson backtickArrayText) none "easy" 5 0 "T") =
      false :=
  ⟨rfl, rfl⟩

/-- Does an entry's dedup key equal `k`? -/
def hasKey (k : String) (q : Json) : Bool :=
  match dedupKey q with
  | .ok (some t) => t == k
  | _ => false

/-- Number of entries with dedup key `k` in a list. -/
def keyCount (k : String) (l : List Json) : Nat := l.countP (hasKey k)

/-- Number of stored entries with dedup key `k`. -/
def storeKeyCount (k : String) (file : Option Json) : Nat := keyCount k (decodeStore file)

theorem hasKey_iff (k : String) (q : Json) :
    hasKey k q = true ↔ dedupKey q = .ok (some k) := by
  unfold hasKey
  cases hd : dedupKey q with
  | error e => simp
  | ok kq =>
    cases kq with
    | none => simp
    | some t => simp [beq_iff_eq]

theorem mapKeysE_mem (q : Json) :
    ∀ (qs : List Json) (ks : List (Option String)),
      mapKeysE qs = .ok ks → q ∈ qs → ∃ kq, dedupKey q = .ok kq ∧ kq ∈ ks := by
  intro qs
  induction qs with
  | nil => intro ks _ hq; cases hq
  | cons q' rest ih =>
    intro ks h hq
    simp only [mapKeysE, bind, Except.bind] at h
    cases h1 : dedupKey q' with
    | error e => rw [h1] at h; exact absurd h (by simp)
    | ok k0 =>
      rw [h1] at h
      cases h2 : mapKeysE rest with
      | error e => rw [h2] at h; exact absurd h (by simp)
      | ok kr =>
        rw [h2] at h
        simp only [Except.ok.injEq] at h
        subst h
        rcases List.mem_cons.mp hq with hq | hq
        · exact ⟨k0, hq ▸ h1, List.mem_cons_self _ _⟩
        · obtain ⟨kq, hk1, hk2⟩ := ih kr h2 hq
          exact ⟨kq, hk1, List.mem_cons_of_mem _ hk2⟩

theorem mapKeysE_mem_rev (k : String) :
    ∀ (qs : List Json) (ks : List (Option String)),
      mapKeysE qs = .ok ks → some k ∈ ks → ∃ q ∈ qs, dedupKey q = .ok (some k) := by
  intro qs
  induction qs with
  | nil =>
    intro ks h hk
    simp only [mapKeysE, Except.ok.injEq] at h
    subst h
    cases hk
  | cons q' rest ih =>
    intro ks h hk
    simp only [mapKeysE, bind, Except.bind] at h
    cases h1 : dedupKey q' with
    | error e => rw [h1] at h; exact absurd h (by simp)
    | ok k0 =>
      rw [h1] at h
      cases h2 : mapKeysE rest with
      | error e => rw [h2] at h; exact absurd h (by simp)
      | ok kr =>
        rw [h2] at h
        simp only [Except.ok.injEq] at h
        subst h
        rcases List.mem_cons.mp hk with hk | hk
        · exact ⟨q', List.mem_cons_self _ _, hk ▸ h1⟩
        · obtain ⟨q, hq1, hq2⟩ := ih kr h2 hk
          exact ⟨q, List.mem_cons_of_mem _ hq1, hq2⟩

theorem keyCount_cons (k : String) (q : Json) (l : List Json) :
    keyCount k (q :: l) = keyCount k l + (if hasKey k q then 1 else 0) :=
  List.countP_cons _ _ _

theorem filterNewE_destruct (ks : List String) (q : Json) (rest : List Json)
    (r : List Json) (h : filterNewE ks (q :: rest) = .ok r) :
    ∃ kq r', dedupKey q = .ok kq ∧ filterNewE ks rest = .ok r' ∧
      r = (if keepNew ks kq then q :: r' else r') := by
  simp only [filterNewE, bind, Except.bind] at h
  cases h1 : dedupKey q with
  | error e => rw [h1] at h; exact absurd h (by simp)
  | ok kq =>
    rw [h1] at h
    cases h2 : filterNewE ks rest with
    | error e => rw [h2] at h; exact absurd h (by simp)
    | ok r' =>
      rw [h2] at h
      simp only [Except.ok.injEq] at h
      exact ⟨kq, r', rfl, rfl, h.symm⟩

theorem filterNewE_count_keep (ks : List String) (k : String)
    (hk : ¬(k = "")) (hnotin : ks.contains k = false) :
    ∀ (qs r : List Json), filterNewE ks qs = .ok r → keyCount k r = keyCount k qs := by
  intro qs
  induction qs with
  | nil =>
    intro r h
    simp only [filterNewE, Except.ok.injEq] at h
    subst h
    rfl
  | cons q rest ih =>
    intro r h
    obtain ⟨kq, r', h1, h2, h3⟩ := filterNewE_destruct ks q rest r h
    subst h3
    have ihr := ih r' h2
    cases kq with
    | none =>
      have hkeyf : hasKey k q = false := by
        cases hkey : hasKey k q
        · rfl
        · rw [(hasKey_iff k q).mp hkey] at h1
          exact absurd h1 (by simp)
      simp [keepNew, keyCount_cons, hkeyf, ihr]
    | some t =>
      by_cases ht : t = k
      · subst ht
        have hkey : hasKey t q = true := (hasKey_iff t q).mpr h1
        have hnotin2 : t ∉ ks := by simpa using hnotin
        have hkeep : keepNew ks (some t) = true := by simp [keepNew, hk, hnotin2]
        simp [hkeep, keyCount_cons, hkey, ihr]
      · have hkeyf : hasKey k q = false := by
          cases hkey : hasKey k q
          · rfl
          · rw [(hasKey_iff k q).mp hkey] at h1
            simp only [Except.ok.injEq, Option.some.injEq] at h1
            exact absurd h1.symm ht
        by_cases hkeep : keepNew ks (some t) = true
        · simp [hkeep, keyCount_cons, hkeyf, ihr]
        · simp only [Bool.not_eq_true] at hkeep
          simp [hkeep, keyCount_cons, hkeyf, ihr]

theorem filterNewE_count_drop (ks : List String) (k : String)
    (hin : ks.contains k = true) :
    ∀ (qs r : List Json), filterNewE ks qs = .ok r → keyCount k r = 0 := by
  intro qs
  induction qs with
  | nil =>
    intro r h
    simp only [filterNewE, Except.ok.injEq] at h
    subst h
    rfl
  | cons q rest ih =>
    intro r h
    obtain ⟨kq, r', h1, h2, h3⟩ := filterNewE_destruct ks q rest r h
    subst h3
    have ihr := ih r' h2
    cases kq with
    | none => simp [keepNew, ihr]
    | some t =>
      by_cases ht : t = k
      · subst ht
        have hin2 : t ∈ ks := by simpa using hin
        have hkeep : keepNew ks (some t) = false := by simp [keepNew, hin2]
        simp [hkeep, ihr]
      · have hkeyf : hasKey k q = false := by
          cases hkey : hasKey k q
          · rfl
          · rw [(hasKey_iff k q).mp hkey] at h1
            simp only [Except.ok.injEq, Option.some.injEq] at h1
            exact absurd h1.symm ht
        by_cases hkeep : keepNew ks (some t) = true
        · simp [hkeep, keyCount_cons, hkeyf, ihr]
        · simp only [Bool.not_eq_true] at hkeep
          simp [hkeep, ihr]

theorem filterNewE_all_skip (ks : List String) :
    ∀ (qs : List Json),
      (∀ q ∈ qs, ∃ kq, dedupKey q = .ok kq ∧ keepNew ks kq = false) →
      filterNewE ks qs = .ok [] := by
  intro qs
  induction qs with
  | nil => intro _; rfl
  | cons q rest ih =>
    intro hall
    obtain ⟨kq, h1, h2⟩ := hall q (List.mem_cons_self _ _)
    simp only [filterNewE, bind, Except.bind, h1,
      ih (fun q hq => hall q (List.mem_cons_of_mem _ hq)), h2, Bool.false_eq_true,
      if_false]

/-- C8: `saveQuestionsToRepo` deduplicates by case-insensitive trimmed
question text and is idempotent across sequential calls.  Part one: when
no incoming entry is genuinely new (its key is absent, empty, or already
stored), the remote write is skipped entirely and the store is unchanged.
Part two: starting from a store without key `k`, a save of a batch
containing the key exactly once followed by a save of another batch
containing it again leaves exactly one stored copy, not two. -/
theorem save_dedup_idempotent :
    (∀ (file : Option Json) (qs : List Json) (commitOk : Bool)
       (ks : List (Option String)),
      mapKeysE (decodeStore file) = .ok ks →
      (∀ q ∈ qs, ∃ kq, dedupKey q = .ok kq ∧ keepNew (ks.filterMap id) kq = false) →
      saveQuestionsToRepo file qs commitOk = .ok (false, file)) ∧
    (∀ (file : Option Json) (b1 b2 : List Json) (k : String)
       (p1 p2 : Bool × Option Json),
      ¬(k = "") → storeKeyCount k file = 0 → keyCount k b1 = 1 →
      1 ≤ keyCount k b2 →
      saveQuestionsToRepo file b1 true = .ok p1 →
      saveQuestionsToRepo p1.2 b2 true = .ok p2 →
      storeKeyCount k p1.2 = 1 ∧ storeKeyCount k p2.2 = 1) := by
  constructor
  · intro file qs commitOk ks hks hall
    unfold saveQuestionsToRepo
    simp only [bind, Except.bind, hks]
    rw [filterNewE_all_skip _ qs hall]
    simp
  · intro file b1 b2 k p1 p2 hk h0 hb1 _hb2 hs1 hs2
    unfold saveQuestionsToRepo at hs1
    simp only [bind, Except.bind] at hs1
    cases hks0 : mapKeysE (decodeStore file) with
    | error e => simp only [hks0] at hs1; exact absurd hs1 (by simp)
    | ok keys0 =>
      simp only [hks0] at hs1
      cases hfn0 : filterNewE (keys0.filterMap id) b1 with
      | error e => simp only [hfn0] at hs1; exact absurd hs1 (by simp)
      | ok n1 =>
        simp only [hfn0] at hs1
        have hnotin0 : (keys0.filterMap id).contains k = false := by
          cases hcon : (keys0.filterMap id).contains k
          · rfl
          · exfalso
            have hmem : some k ∈ keys0 := by
              have hmem0 : k ∈ keys0.filterMap id := by simpa using hcon
              obtain ⟨o, ho, hoo⟩ := List.mem_filterMap.mp hmem0
              cases o with
              | none => cases hoo
              | some s =>
                simp only [id_eq, Option.some.injEq] at hoo
                exact hoo ▸ ho
            obtain ⟨q, hq1, hq2⟩ := mapKeysE_mem_rev k _ keys0 hks0 hmem
            have hkq : hasKey k q = true := (hasKey_iff k q).mpr hq2
            have hpos : 0 < keyCount k (decodeStore file) :=
              List.countP_pos_iff.mpr ⟨q, hq1, hkq⟩
            rw [storeKeyCount] at h0
            omega
        have hcnt1 : keyCount k n1 = keyCount k b1 :=
          filterNewE_count_keep _ k hk hnotin0 b1 n1 hfn0
        have hn1 : keyCount k n1 = 1 := hcnt1.trans hb1
        have hn1ne : ¬(n1.length = 0) := by
          intro hlen
          rw [List.length_eq_zero.mp hlen] at hn1
          simp [keyCount] at hn1
        rw [if_neg hn1ne, if_pos trivial] at hs1
        simp only [Except.ok.injEq] at hs1
        have hstore1 : storeKeyCount k p1.2 = 1 := by
          rw [← hs1]
          show keyCount k (decodeStore (some (.arr (decodeStore file ++ n1)))) = 1
          rw [show decodeStore (some (.arr (decodeStore file ++ n1))) =
            decodeStore file ++ n1 from rfl]
          simp only [keyCount, List.countP_append]
          have e0 : List.countP (hasKey k) (decodeStore file) = 0 := h0
          have e1 : List.countP (hasKey k) n1 = 1 := hn1
          omega
        refine ⟨hstore1, ?_⟩
        unfold saveQuestionsToRepo at hs2
        simp only [bind, Except.bind] at hs2
        cases hks1 : mapKeysE (decodeStore p1.2) with
        | error e => simp only [hks1] at hs2; exact absurd hs2 (by simp)
        | ok keys1 =>
          simp only [hks1] at hs2
          cases hfn1 : filterNewE (keys1.filterMap id) b2 with
          | error e => simp only [hfn1] at hs2; exact absurd hs2 (by simp)
          | ok n2 =>
            simp only [hfn1] at hs2
            have hpos1 : 0 < keyCount k (decodeStore p1.2) := by
              rw [show keyCount k (decodeStore p1.2) = 1 from hstore1]
              omega
            obtain ⟨q0, hq01, hq02⟩ := List.countP_pos_iff.mp hpos1
            obtain ⟨kq0, hkq1, hkq2⟩ := mapKeysE_mem q0 _ keys1 hks1 hq01
            have hkq0 : kq0 = some k := by
              rw [(hasKey_iff k q0).mp hq02] at hkq1
              simp only [Except.ok.injEq] at hkq1
              exact hkq1.symm
            subst hkq0
            have hin1 : (keys1.filterMap id).contains k = true := by
              simpa using List.mem_filterMap.mpr ⟨some k, hkq2, rfl⟩
            have hcnt2 : keyCount k n2 = 0 :=
              filterNewE_count_drop _ k hin1 b2 n2 hfn1
            by_cases hlen2 : n2.length = 0
            · rw [if_pos hlen2] at hs2
              simp only [Except.ok.injEq] at hs2
              rw [← hs2]
              exact hstore1
            · rw [if_neg hlen2, if_pos trivial] at hs2
              simp only [Except.ok.injEq] at hs2
              rw [← hs2]
              show keyCount k (decodeStore (some (.arr (decodeStore p1.2 ++ n2)))) = 1
              rw [show decodeStore (some (.arr (decodeStore p1.2 ++ n2))) =
                decodeStore p1.2 ++ n2 from rfl]
              simp only [keyCount, List.countP_append]
              have e1 : List.countP (hasKey k) (decodeStore p1.2) = 1 := hstore1
              have e2 : List.countP (hasKey k) n2 = 0 := hcnt2
              omega

/-- A concrete generated question and a case/whitespace variant of it. -/
def saveQ1 : Json := .obj [("question", .str "What is X?"), ("type", .str "true-false")]

/-- The same question text with different case and padding. -/
def saveQ1v : Json := .obj [("question", .str "  WHAT IS x?  "), ("type", .str "true-false")]

/-- Witness for C8: saving `saveQ1` into an empty store and then saving
its case-insensitive variant leaves exactly one stored copy. -/
theorem save_dedup_idempotent_witness :
    ¬("what is x?" = "") ∧ storeKeyCount "what is x?" none = 0 ∧
    keyCount "what is x?" [saveQ1] = 1 ∧ 1 ≤ keyCount "what is x?" [saveQ1v] ∧
    storeKeyCount "what is x?" (some (.arr [saveQ1])) = 1 ∧
    storeKeyCount "what is x?" (some (.arr [saveQ1])) = 1 := by
  refine ⟨by decide, rfl, by decide, by decide, ?_⟩
  exact save_dedup_idempotent.2 none [saveQ1] [saveQ1v] "what is x?"
    (true, some (.arr [saveQ1])) (false, some (.arr [saveQ1]))
    (by decide) rfl (by decide) (by decide) rfl rfl

/-- The categories the UI can request (the settings panel offers the four
fixed categories or null for mixed). -/
def validCategory : Option String → Bool
  | none => true
  | some s => s == "science" || s == "history" || s == "geography" || s == "technology"

/-- The difficulties the UI can request. -/
def validDifficulty (d : String) : Bool := d == "easy" || d == "medium" || d == "hard"

theorem fallbackFilter_valid_nonempty (c : Option String) (d : String)
    (hc : validCategory c = true) (hd : validDifficulty d = true) :
    fallbackFilter c (jsStrOpt d) ≠ [] := by
  have hd' : d = "easy" ∨ d = "medium" ∨ d = "hard" := by
    by_cases h1 : d = "easy"
    · exact Or.inl h1
    by_cases h2 : d = "medium"
    · exact Or.inr (Or.inl h2)
    by_cases h3 : d = "hard"
    · exact Or.inr (Or.inr h3)
    exfalso
    simp [validDifficulty, h1, h2, h3] at hd
  have hc' : c = none ∨ c = some "science" ∨ c = some "history" ∨
      c = some "geography" ∨ c = some "technology" := by
    cases c with
    | none => exact Or.inl rfl
    | some s =>
      by_cases h1 : s = "science"
      · exact Or.inr (Or.inl (by rw [h1]))
      by_cases h2 : s = "history"
      · exact Or.inr (Or.inr (Or.inl (by rw [h2])))
      by_cases h3 : s = "geography"
      · exact Or.inr (Or.inr (Or.inr (Or.inl (by rw [h3]))))
      by_cases h4 : s = "technology"
      · exact Or.inr (Or.inr (Or.inr (Or.inr (by rw [h4]))))
      exfalso
      simp [validCategory, h1, h2, h3, h4] at hc
  rcases hc' with rfl | rfl | rfl | rfl | rfl <;> rcases hd' with rfl | rfl | rfl <;>
    exact List.ne_nil_of_length_pos (by decide)

theorem fallbackResult_ok (c : Option String) (d : String) (count : Nat)
    (hc : validCategory c = true) (hd : validDifficulty d = true) :
    ∃ l, fallbackResult c d count = .ok l := by
  obtain ⟨l, h1, _, _⟩ := generateFallbackQuestions_spec c (jsStrOpt d) count
    (fallbackFilter_valid_nonempty c d hc hd)
  exact ⟨l.map Question.toJson, by simp [fallbackResult, h1, Except.map]⟩

theorem tryBody_not_retry (env : Env) (cat : Option String) (diff : String)
    (count : Nat) (attempt : Nat)
    (h : isLoadingOutcome (env.infer attempt) = false) :
    ∃ r, tryBody env cat diff count attempt = .value r := by
  unfold tryBody
  cases ho : env.infer attempt with
  | netError => exact ⟨.error "Network error: failed to fetch", rfl⟩
  | success body =>
    cases body with
    | none => exact ⟨.error "SyntaxError: unexpected token in JSON", rfl⟩
    | some data =>
      cases hx : extractContent data with
      | error e => exact ⟨.error e, by simp [hx]⟩
      | ok content =>
        by_cases hct : content = ""
        · exact ⟨.error "No generated text in response from Hugging Face API",
            by simp [hx, hct]⟩
        · exact ⟨(parseQuestionsText content cat diff count env.now env.ts).map
            (·.map Question.toJson), by simp [hx, hct]⟩
  | httpError body =>
    rw [ho] at h
    cases hg : getProp (body.getD (.obj [])) "error" with
    | error e => exact ⟨.error e, by simp [hg]⟩
    | ok v =>
      cases v with
      | none => exact ⟨.error "Hugging Face API error", by simp [hg, truthyO]⟩
      | some j =>
        cases j with
        | str s =>
          by_cases hs : s = ""
          · exact ⟨.error "Hugging Face API error",
              by simp [hg, truthyO, truthy, hs]⟩
          · have hns : (s != "") = true := by simpa using hs
            have h' := h
            simp only [isLoadingOutcome, hg] at h'
            rw [hns] at h'
            simp only [Bool.true_and] at h'
            exact ⟨.error "Hugging Face API error",
              by simp [hg, truthyO, truthy, hns, h']⟩
        | null => exact ⟨.error "Hugging Face API error", by simp [hg, truthyO, truthy]⟩
        | bool b =>
          cases b with
          | false => exact ⟨.error "Hugging Face API error",
              by simp [hg, truthyO, truthy]⟩
          | true => exact ⟨.error "TypeError: includes is not a function",
              by simp [hg, truthyO, truthy]⟩
        | num nv =>
          by_cases hz : nv = 0
          · exact ⟨.error "Hugging Face API error", by simp [hg, truthyO, truthy, hz]⟩
          · exact ⟨.error "TypeError: includes is not a function",
              by simp [hg, truthyO, truthy, hz]⟩
        | arr xs => exact ⟨.error "TypeError: includes is not a function",
            by simp [hg, truthyO, truthy]⟩
        | obj fs => exact ⟨.error "TypeError: includes is not a function",
            by simp [hg, truthyO, truthy]⟩

theorem genAux_resolves (env : Env) (cat : Option String) (diff : String)
    (count : Nat) (hc : validCategory cat = true) (hd : validDifficulty diff = true) :
    ∀ (n a : Nat), isLoadingOutcome (env.infer (a + n)) = false →
      ∃ l, generateQuestionsWithAI env cat diff count (n + 1) a = some (.ok l) := by
  intro n
  induction n with
  | zero =>
    intro a h
    rw [Nat.add_zero] at h
    cases hrs : repoStage env cat diff count with
    | some hit => exact ⟨hit, by rw [genQ_step]; simp [hrs]⟩
    | none =>
      by_cases hapi : env.apiToken = true
      · obtain ⟨r, hr⟩ := tryBody_not_retry env cat diff count a h
        cases r with
        | ok l => exact ⟨l, by rw [genQ_step]; simp [hrs, hapi, hr]⟩
        | error e =>
          obtain ⟨l, hl⟩ := fallbackResult_ok cat diff count hc hd
          exact ⟨l, by rw [genQ_step]; simp [hrs, hapi, hr, hl]⟩
      · have hapi' : env.apiToken = false := by simpa using hapi
        obtain ⟨l, hl⟩ := fallbackResult_ok cat diff count hc hd
        exact ⟨l, by rw [genQ_step]; simp [hrs, hapi', hl]⟩
  | succ n ih =>
    intro a h
    cases hrs : repoStage env cat diff count with
    | some hit => exact ⟨hit, by rw [genQ_step]; simp [hrs]⟩
    | none =>
      by_cases hapi : env.apiToken = true
      · cases htb : tryBody env cat diff count a with
        | value r =>
          cases r with
          | ok l => exact ⟨l, by rw [genQ_step]; simp [hrs, hapi, htb]⟩
          | error e =>
            obtain ⟨l, hl⟩ := fallbackResult_ok cat diff count hc hd
            exact ⟨l, by rw [genQ_step]; simp [hrs, hapi, htb, hl]⟩
        | retryNeeded =>
          have h' : isLoadingOutcome (env.infer ((a + 1) + n)) = false := by
            rw [show (a + 1) + n = a + (n + 1) from by omega]
            exact h
          obtain ⟨l, hl⟩ := ih (a + 1) h'
          exact ⟨l, by rw [genQ_step]; simp [hrs, hapi, htb, hl]⟩
      · have hapi' : env.apiToken = false := by simpa using hapi
        obtain ⟨l, hl⟩ := fallbackResult_ok cat diff count hc hd
        exact ⟨l, by rw [genQ_step]; simp [hrs, hapi', hl]⟩

/-- C2 (amended): for requested categories/difficulties from the UI's
enumerated sets and a positive count, whenever the inference endpoint's
`n`-th response is not a model-loading report, the orchestrator — run with
fuel `n + 1` — terminates and resolves to a question sequence with no
error escaping to the caller.  The sequence may be empty (see the
counterexample) and no `EmptyResultError` exists in the code, so the
original "non-empty or terminal error" disjunction does not hold. -/
theorem orchestrator_resolves_amended (env : Env) (cat : Option String)
    (diff : String) (count : Nat) (n : Nat)
    (hc : validCategory cat = true) (hd : validDifficulty diff = true)
    (_hcnt : 0 < count)
    (hn : isLoadingOutcome (env.infer n) = false) :
    ∃ l, getQuestions env cat diff count (n + 1) = some (.ok l) := by
  have h := genAux_resolves env cat diff count hc hd n 0 (by simpa using hn)
  simpa [getQuestions] using h

/-- A 2xx inference response whose generated text is the empty JSON
array. -/
def emptyGenBody : Json := .arr [.obj [("generated_text", .str "[]")]]

/-- Environment: inference token present, repo not configured, model
always answers with the empty array. -/
def envEmptyAI : Env :=
  { apiToken := true, repoId := false, repoTimedOut := false,
    repoFetch := .resp 404 none, shuffle := id,
    infer := fun _ => .success (some emptyGenBody), now := 0, ts := "T" }

/-- C2 counterexample: when the model returns `[]`, the orchestrator
resolves to the empty sequence — not a non-empty sequence, and not an
`EmptyResultError` (no such error exists anywhere in the code) — so the
claimed disjunction fails. -/
theorem orchestrator_empty_result_counterexample :
    getQuestions envEmptyAI (some "science") "easy" 5 1 = some (.ok []) := rfl

/-- Witness for the amended C2 at the concrete environment. -/
theorem orchestrator_resolves_amended_witness :
    validCategory (some "science") = true ∧ validDifficulty "easy" = true ∧
    0 < 5 ∧ isLoadingOutcome (envEmptyAI.infer 0) = false ∧
    ∃ l, getQuestions envEmptyAI (some "science") "easy" 5 (0 + 1) = some (.ok l) :=
  ⟨rfl, rfl, by decide, rfl,
    orchestrator_resolves_amended envEmptyAI (some "science") "easy" 5 0 rfl rfl
      (by decide) rfl⟩

/-- A non-2xx inference response reporting the model is loading. -/
def loadingBody : Json :=
  .obj [("error", .str "Model meta-llama/Llama-3.2-3B-Instruct is currently loading")]

/-- Environment whose first two inference responses report loading and
whose third succeeds. -/
def envLoadingTwice : Env :=
  { envEmptyAI with
    infer := fun n => if n < 2 then .httpError (some loadingBody)
                      else .success (some emptyGenBody) }

/-- Environment whose inference responses always report loading. -/
def envLoadingAlways : Env :=
  { envEmptyAI with infer := fun _ => .httpError (some loadingBody) }

/-- C3: the code's own comment says "Wait and retry once", and the claim
says a second loading failure propagates as an error; but the retry at
line 364 re-invokes the whole orchestrator with no retry counter.  With
two consecutive loading responses the orchestrator issues a third request
and returns its parse result instead of surfacing a failure (first three
conjuncts), and while loading reports persist it simply keeps retrying:
with fuel for 2 attempts it is still running, and even 25 attempts do not
terminate the all-loading run (last two conjuncts). -/
theorem model_loading_retries_unbounded :
    isLoadingOutcome (envLoadingTwice.infer 0) = true ∧
    isLoadingOutcome (envLoadingTwice.infer 1) = true ∧
    getQuestions envLoadingTwice (some "science") "easy" 5 3 = some (.ok []) ∧
    getQuestions envLoadingTwice (some "science") "easy" 5 2 = none ∧
    getQuestions envLoadingAlways (some "science") "easy" 5 25 = none :=
  ⟨rfl, rfl, rfl, rfl, rfl⟩

/-- C10: the repo lookup is contained.  Part one: any two non-hit
outcomes of the raced repo load (timeout, transport error, non-array or
insufficient content) leave the orchestrator's behaviour identical — the
lookup's failure mode never escapes or influences the inference/fallback
path.  Part two: a repo hit resolves immediately with the repo
questions. -/
theorem repo_lookup_contained :
    (∀ (e : Env) (t1 t2 : Bool) (f1 f2 : FetchOutcome) (cat : Option String)
       (diff : String) (count : Nat),
      repoStage { e with repoTimedOut := t1, repoFetch := f1 } cat diff count = none →
      repoStage { e with repoTimedOut := t2, repoFetch := f2 } cat diff count = none →
      ∀ fuel attempt,
        generateQuestionsWithAI { e with repoTimedOut := t1, repoFetch := f1 }
            cat diff count fuel attempt =
          generateQuestionsWithAI { e with repoTimedOut := t2, repoFetch := f2 }
            cat diff count fuel attempt) ∧
    (∀ (e : Env) (cat : Option String) (diff : String) (count : Nat)
       (hit : List Json) (fuel attempt : Nat),
      repoStage e cat diff count = some hit →
      generateQuestionsWithAI e cat diff count (fuel + 1) attempt = some (.ok hit)) := by
  constructor
  · intro e t1 t2 f1 f2 cat diff count h1 h2 fuel
    induction fuel with
    | zero => intro attempt; rfl
    | succ f ih =>
      intro attempt
      have hsame : tryBody { e with repoTimedOut := t2, repoFetch := f2 } cat diff count
          attempt = tryBody { e with repoTimedOut := t1, repoFetch := f1 } cat diff count
          attempt := rfl
      rw [genQ_step, genQ_step, h1, h2, hsame]
      cases htb : tryBody { e with repoTimedOut := t1, repoFetch := f1 } cat diff
          count attempt with
      | value r => cases r <;> rfl
      | retryNeeded =>
        have hrec := ih (attempt + 1)
        simp only [hrec]
  · intro e cat diff count hit fuel attempt h
    rw [genQ_step, h]

/-- A stored repo question matching science/easy. -/
def repoQ : Json :=
  .obj [("category", .str "science"), ("difficulty", .str "easy"),
        ("question", .str "Q")]

/-- Environment with a configured repo whose load succeeds with one
matching question. -/
def envRepoHit : Env :=
  { envEmptyAI with repoId := true, repoFetch := .resp 200 (some (.arr [repoQ])) }

/-- Environment with a configured repo (used with varying lookup
outcomes). -/
def envRepoBase : Env := { envEmptyAI with repoId := true }

/-- Environment whose repo lookup times out. -/
def envRepoTimeout : Env :=
  { envRepoBase with repoTimedOut := true, repoFetch := FetchOutcome.transportError }

/-- Environment whose repo lookup fails at the transport level. -/
def envRepoNetErr : Env :=
  { envRepoBase with repoTimedOut := false, repoFetch := FetchOutcome.transportError }

/-- Witness for C10: a timed-out lookup and a transport-failed lookup are
both non-hits and give identical runs, and a concrete repo hit resolves
with the repo questions. -/
theorem repo_lookup_contained_witness :
    repoStage envRepoTimeout (some "science") "easy" 5 = none ∧
    repoStage envRepoNetErr (some "science") "easy" 5 = none ∧
    generateQuestionsWithAI envRepoTimeout (some "science") "easy" 5 1 0 =
      generateQuestionsWithAI envRepoNetErr (some "science") "easy" 5 1 0 ∧
    repoStage envRepoHit (some "science") "easy" 1 = some [repoQ] ∧
    generateQuestionsWithAI envRepoHit (some "science") "easy" 1 1 0 =
      some (.ok [repoQ]) :=
  ⟨rfl, rfl,
    repo_lookup_contained.1 envRepoBase true false .transportError .transportError
      (some "science") "easy" 5 rfl rfl 1 0,
    rfl,
    repo_lookup_contained.2 envRepoHit (some "science") "easy" 1 [repoQ] 0 0 rfl⟩

end TTeller
